import Mathlib

/-!
Verification development for the raggy document-ingestion library.

The embedded components, translated from the repository sources:

* `raggy/utilities/text.py` — the tokenizer adapter (`tokenize`, `detokenize`,
  `count_tokens`, `slice_tokens`) and the token-window chunker `split_text`.
* `raggy/documents.py` — the `Document` data model and the excerpt builder
  `document_to_excerpts` / `_create_excerpt`.
* `raggy/utilities/asyncutils.py` — the bounded-concurrency runner
  `run_concurrent_tasks`, embedded both as a value-level model (for its use by
  `Chroma.upsert_batched`) and as a small-step transition system (for the
  bounded-concurrency safety property).
* `raggy/vectorstores/tpuf.py` and `raggy/vectorstores/chroma.py` — the
  batched upsert orchestrators and the `reset` / `ok` namespace operations.

Python `int` becomes `Nat`/`Int`, the Python `float` fraction parameters
become `ℚ` (exact rationals; the float rounding of
`int(chunk_overlap * chunk_size)` agrees with the rational floor for all
realistic chunk sizes), and fallible Python code returns `Except String`.
External capabilities (keyword extraction, template rendering, embedding,
the vector-store clients) are parameters or spec-modelled state machines.
-/

namespace Raggy

/-! ## Tokenizer adapter (`raggy/utilities/text.py`)

Modelled from the spec: the tokenizer backend (the external `tiktoken`
library) is not part of the repository sources, so per spec section 4.1 it is
modelled as an exact, invertible token coder — text converts to a token
sequence and back losslessly. One token per character is the simplest such
coder; a token is identified with the character it decodes to. -/

abbrev Token := Char

/-- Modelled from the spec: `tokenize(text, model)` converts text to a token
sequence (spec section 4.1); the `tiktoken` encoder itself is external to
the repository sources. -/
def tokenize (text : String) : List Token :=
  text.data

/-- Modelled from the spec: `detokenize(tokens, model)` converts a token
sequence back to text (spec section 4.1). -/
def detokenize (tokens : List Token) : String :=
  String.mk tokens

/-- `count_tokens(text, model)` from `raggy/utilities/text.py`: the length of
the tokenized text. -/
def count_tokens (text : String) : Nat :=
  (tokenize text).length

/-- `slice_tokens(text, n_tokens)` from `raggy/utilities/text.py`:
`detokenize(tokenize(text)[:n_tokens])`. -/
def slice_tokens (text : String) (n_tokens : Nat) : String :=
  detokenize ((tokenize text).take n_tokens)

/-! ## Python iteration helpers

`range(0, n, step)` for `step > 0` yields `⌈n / step⌉` indices
`0, step, 2*step, …`; Python raises `ValueError` when `step = 0`, which the
chunker embedding surfaces as an `Except.error`. -/

/-- Length of Python `range(0, n, step)` for `step > 0`: `⌈n / step⌉`. -/
def pyRangeLen (n step : Nat) : Nat :=
  (n + step - 1) / step

/-- The indices produced by Python `range(0, n, step)` for `step > 0`. -/
def pyIndices (n step : Nat) : List Nat :=
  (List.range (pyRangeLen n step)).map (· * step)

/-- The consecutive slices `l[i : i + step]` for `i in range(0, len(l), step)`,
the Python batching idiom used by both `upsert_batched` implementations. -/
def pySlices {α : Type} (l : List α) (step : Nat) : List (List α) :=
  (pyIndices l.length step).map (fun i => (l.drop i).take step)

/-! ## Chunker `split_text` (`raggy/utilities/text.py`)

The source walks the token list in steps of
`chunk_size - int(chunk_overlap * chunk_size)`, emitting windows of up to
`chunk_size` tokens (each paired with a character offset that the return
statement discards; the offsets are omitted here). If the last window is
shorter than `chunk_size * last_chunk_threshold` tokens and there is more
than one window, its tokens are appended onto the second-to-last window and
it is dropped. -/

/-- The raw token windows `tokens[i : i + chunk_size]` for
`i in range(0, len(tokens), step)` of `split_text`, before tail merging. -/
def rawWindows {α : Type} (tokens : List α) (chunk_size step : Nat) :
    List (List α) :=
  (pyIndices tokens.length step).map (fun i => (tokens.drop i).take chunk_size)

/-- The tail-merge step of `split_text`: when there is more than one window
and the final window has fewer than `chunk_size * last_chunk_threshold`
tokens, its tokens are appended to the second-to-last window
(`chunks[-2][0].extend(chunks.pop(-1)[0])`). -/
def mergeTail {α : Type} (chunk_size : Nat) (last_chunk_threshold : ℚ)
    (chunks : List (List α)) : List (List α) :=
  match chunks.reverse with
  | lastW :: prevW :: rest =>
      if (lastW.length : ℚ) < (chunk_size : ℚ) * last_chunk_threshold then
        ((prevW ++ lastW) :: rest).reverse
      else chunks
  | _ => chunks

/-- The token-level body of `split_text`: validation of `chunk_overlap`,
stride computation (`chunk_size - int(chunk_overlap * chunk_size)`), the
window walk, and the tail merge. A zero stride reproduces the `ValueError`
Python `range` raises for a zero step. Generic in the token type. -/
def split_text_token_chunks {α : Type} (tokens : List α) (chunk_size : Nat)
    (chunk_overlap last_chunk_threshold : ℚ) : Except String (List (List α)) :=
  if chunk_overlap < 0 ∨ chunk_overlap > 1 then
    .error "chunk_overlap must be between 0 and 1"
  else if chunk_size - (⌊chunk_overlap * (chunk_size : ℚ)⌋).toNat = 0 then
    .error "range() arg 3 must not be zero"
  else
    .ok (mergeTail chunk_size last_chunk_threshold
          (rawWindows tokens chunk_size
            (chunk_size - (⌊chunk_overlap * (chunk_size : ℚ)⌋).toNat)))

/-- `split_text(text, chunk_size, chunk_overlap, last_chunk_threshold)` from
`raggy/utilities/text.py`. `none` for an optional argument selects the
source defaults `0.1` and `0.25`; the returned chunks are detokenized. -/
def split_text (text : String) (chunk_size : Nat)
    (chunk_overlap : Option ℚ := none)
    (last_chunk_threshold : Option ℚ := none) : Except String (List String) :=
  (split_text_token_chunks (tokenize text) chunk_size
      (chunk_overlap.getD (1 / 10)) (last_chunk_threshold.getD (1 / 4))).map
    (fun chunks => chunks.map detokenize)

/-! ## Document model and excerpt builder (`raggy/documents.py`) -/

/-- `DocumentMetadata` from `raggy/documents.py`: known fields `title` and
`link` (the pydantic extra-field mechanism is not used by any claim). -/
structure DocumentMetadata where
  title : Option String := none
  link : Option String := none
deriving DecidableEq

/-- `Document` from `raggy/documents.py`. Floats in `embedding` become `ℚ`.
The `ensure_tokens` validator makes `tokens` equal `count_tokens(text)`
whenever the caller does not supply it, so `tokens` is embedded as the
resolved `Nat`. The `ensure_metadata` validator guarantees `metadata` is
always a `DocumentMetadata` record. -/
structure Document where
  id : String
  text : String
  parent_document_id : Option String := none
  embedding : Option (List ℚ) := none
  metadata : DocumentMetadata := {}
  tokens : Nat
  keywords : List String := []
deriving DecidableEq

/-- `generate_prefixed_uuid` from `raggy/utilities/ids.py` returns
`f"{prefix}_{uuid.uuid4()}"`; the uuid draw is nondeterministic and no claim
depends on it, so it is modelled by a fixed placeholder suffix. -/
def generate_prefixed_uuid (p : String) : String :=
  p ++ "_uuid4"

/-- `_create_excerpt` from `raggy/documents.py`: extract keywords from the
chunk (no exception handling around the call — an extraction failure
propagates), render the excerpt template with the joined keywords, and build
the derived `Document` with `parent_document_id` set to the source id,
`metadata` taken from the parent (a pydantic model is always truthy, so the
`document.metadata if document.metadata else {}` expression yields the
parent metadata), and `tokens` recomputed from the rendered text. The
external capabilities — keyword extraction (`extract_keywords`, backed by
`yake`) and jinja template rendering — are function parameters returning
`Except`. -/
def _create_excerpt (extract_kw : String → Except String (List String))
    (render : Document → String → String → Except String String)
    (document : Document) (text : String) : Except String Document := do
  let keywords ← extract_kw text
  let excerpt_text ← render document text (String.intercalate ", " keywords)
  pure { id := generate_prefixed_uuid "doc",
         text := excerpt_text,
         parent_document_id := some document.id,
         metadata := document.metadata,
         tokens := count_tokens excerpt_text,
         keywords := keywords }

/-- `document_to_excerpts` from `raggy/documents.py`: chunk the document text
with `split_text` (threshold left at its default), then build one excerpt
per chunk. The source gathers the per-chunk coroutines with
`asyncio.gather`, which returns results in submission (chunk) order and
propagates the first exception; `mapM` over `Except` models that observable
behavior. -/
def document_to_excerpts (extract_kw : String → Except String (List String))
    (render : Document → String → String → Except String String)
    (document : Document) (chunk_tokens : Nat := 300)
    (overlap : ℚ := 1 / 10) : Except String (List Document) := do
  let text_chunks ← split_text document.text chunk_tokens (some overlap) none
  text_chunks.mapM (_create_excerpt extract_kw render document)

/-! ## Bounded concurrency runner (`raggy/utilities/asyncutils.py`)

`run_concurrent_tasks` guards each submitted item with
`async with semaphore: result = await task`. Two embeddings:

1. A value-level model: what `await task` yields for each submitted item.
   Python `await` succeeds only on awaitables; awaiting a plain function
   object raises `TypeError`. The task group propagates the first failure.
2. A small-step transition system over the semaphore discipline, for the
   bounded-concurrency safety property. -/

/-- An argument submitted to `run_concurrent_tasks`: either an awaitable
(modelled by the result awaiting it produces) or a plain function object,
which Python cannot `await`. -/
inductive PyTaskArg (T : Type) where
  | awaitable (result : Except String T)
  | func (f : Unit → Except String T)

/-- Python `await task` inside `_run_task`: an awaitable runs to its result;
a function object raises `TypeError` (it is never called). -/
def pyAwait {T : Type} : PyTaskArg T → Except String T
  | .awaitable r => r
  | .func _ => .error "TypeError: object function cannot be used in await expression"

/-- Value-level model of `run_concurrent_tasks(tasks, max_concurrent)`: every
submitted item is awaited under the semaphore; the task group propagates the
first failure. Result order is abstracted to submission order (the source
appends in completion order; no claim depends on the order of the result
list). -/
def run_concurrent_tasks {T : Type} (tasks : List (PyTaskArg T))
    (max_concurrent : Nat) : Except String (List T) :=
  tasks.mapM pyAwait

/-- Scheduling status of one submitted task inside `run_concurrent_tasks`:
spawned but blocked on the semaphore, holding a semaphore slot while its
awaitable executes, or finished (slot released). -/
inductive TaskPhase where
  | waiting
  | running
  | done
deriving DecidableEq

/-- Scheduler state of one `run_concurrent_tasks` call: the phase of each
submitted task and the free slots of `anyio.Semaphore(max_concurrent)`. -/
structure RunState where
  phases : List TaskPhase
  sem : Nat
deriving DecidableEq

/-- Initial state: all `n` tasks are spawned (`tg.start_soon`) and blocked on
the semaphore, which holds `max_concurrent` free slots. -/
def initState (n max_concurrent : Nat) : RunState :=
  ⟨List.replicate n .waiting, max_concurrent⟩

/-- Number of tasks currently executing (holding a semaphore slot). -/
def activeCount (s : RunState) : Nat :=
  s.phases.countP (· == .running)

/-- One scheduler step of `run_concurrent_tasks`: a waiting task may enter
`async with semaphore` only when a slot is free, taking it; a running task
may finish, appending its result and releasing its slot on exiting the
`async with` block. -/
inductive RunStep : RunState → RunState → Prop where
  | acquire (s : RunState) (i : Nat) (h : i < s.phases.length)
      (hw : s.phases.get ⟨i, h⟩ = .waiting) (hs : 0 < s.sem) :
      RunStep s ⟨s.phases.set i .running, s.sem - 1⟩
  | finish (s : RunState) (i : Nat) (h : i < s.phases.length)
      (hr : s.phases.get ⟨i, h⟩ = .running) :
      RunStep s ⟨s.phases.set i .done, s.sem + 1⟩

/-- States reachable by the `run_concurrent_tasks` scheduler from the start
of a call with `n` tasks and `max_concurrent` semaphore slots. -/
inductive RunReachable (n max_concurrent : Nat) : RunState → Prop where
  | init : RunReachable n max_concurrent (initState n max_concurrent)
  | step {s t : RunState} : RunReachable n max_concurrent s → RunStep s t →
      RunReachable n max_concurrent t

/-! ## Batched upsert orchestrators

`TurboPuffer.upsert_batched` (`raggy/vectorstores/tpuf.py`) slices the
document list into batches of `batch_size`, then iterates over groups of
`max_concurrent` batches, gathering one `_upsert` per batch; each `_upsert`
issues exactly one `self.ns.write` call carrying one row per document of its
batch. The embedding per batch is an external call and does not change the
row count, so a write call is modelled by the documents it carries.

`Chroma.upsert_batched` (`raggy/vectorstores/chroma.py`) builds the same
batches but appends the `async def _upsert` function objects themselves
(never called, never awaited successfully) to the task list it hands to
`run_concurrent_tasks`, whose `_run_task` does `await task`. -/

/-- The sequence of `ns.write` payloads issued by
`TurboPuffer.upsert_batched(documents, batch_size, max_concurrent)`: batches
of at most `batch_size` documents, executed in groups of `max_concurrent`
and flattened in execution order. -/
def TurboPuffer.upsert_batched_writes (documents : List Document)
    (batch_size max_concurrent : Nat) : List (List Document) :=
  (pySlices (pySlices documents batch_size) max_concurrent).flatten

/-- The task list `Chroma.upsert_batched` builds: one `_upsert` function
object per batch (`tasks.append(_upsert)` appends the `async def` itself,
not a coroutine). Were such a task ever run, it would issue one
`collection.upsert` call carrying its batch. -/
def Chroma.upsert_batched_tasks (documents : List Document)
    (batch_size : Nat) : List (PyTaskArg (List Document)) :=
  (pySlices documents batch_size).map (fun b => PyTaskArg.func (fun _ => .ok b))

/-- `Chroma.upsert_batched(documents, batch_size, max_concurrent)`: hand the
function objects to `run_concurrent_tasks`. On success the result would list
the write payloads; awaiting a function object raises `TypeError` instead. -/
def Chroma.upsert_batched (documents : List Document)
    (batch_size max_concurrent : Nat) : Except String (List (List Document)) :=
  run_concurrent_tasks (Chroma.upsert_batched_tasks documents batch_size)
    max_concurrent

/-! ## TurboPuffer `reset` / `ok` (`raggy/vectorstores/tpuf.py`)

The `turbopuffer` client is external to the repository sources. Modelled
from the spec (sections 4.6 and 7): the backing store is the set of existing
namespaces; `delete_all` and `exists` raise a `NotFoundError` condition when
the namespace is absent. The wrapper methods are translated from
`tpuf.py`: `reset` swallows `NotFoundError` (logging only), `ok` translates
`NotFoundError` to `False`; any other error propagates. -/

/-- Errors surfaced by the turbopuffer client. -/
inductive TpufError where
  | notFound
  | other (msg : String)
deriving DecidableEq

/-- Modelled from the spec: `ns.delete_all()` of the external turbopuffer
client deletes the namespace, raising `NotFoundError` when it does not
exist. The store is the list of existing namespace names. -/
def ns_delete_all (store : List String) (ns : String) :
    Except TpufError (List String) :=
  if ns ∈ store then .ok (store.erase ns) else .error .notFound

/-- Modelled from the spec: `ns.exists()` of the external turbopuffer client
reports existence, raising `NotFoundError` when the namespace is absent. -/
def ns_exists (store : List String) (ns : String) : Except TpufError Bool :=
  if ns ∈ store then .ok true else .error .notFound

/-- `TurboPuffer.reset` from `raggy/vectorstores/tpuf.py`: call
`self.ns.delete_all()`, swallowing `NotFoundError` (debug log only). Returns
the resulting store state. -/
def TurboPuffer.reset (store : List String) (ns : String) :
    Except TpufError (List String) :=
  match ns_delete_all store ns with
  | .ok store' => .ok store'
  | .error .notFound => .ok store
  | .error e => .error e

/-- `TurboPuffer.ok` from `raggy/vectorstores/tpuf.py`: return
`self.ns.exists()`, translating `NotFoundError` to `False`. -/
def TurboPuffer.ok (store : List String) (ns : String) : Except TpufError Bool :=
  match ns_exists store ns with
  | .ok b => .ok b
  | .error .notFound => .ok false
  | .error e => .error e

/-! ## Concrete inputs used by witnesses and counterexamples -/

/-- A keyword-extraction capability that always succeeds with one keyword. -/
def kw_ok : String → Except String (List String) :=
  fun _ => .ok ["kw"]

/-- A keyword-extraction capability that fails the way
`raggy.utilities.text.extract_keywords` fails when `yake` is missing. -/
def kw_failing : String → Except String (List String) :=
  fun _ => .error "ImportError: yake is required for keyword extraction"

/-- A rendering capability that prepends a small header, like the default
excerpt template. -/
def render_ok : Document → String → String → Except String String :=
  fun _ excerpt_text keywords => .ok ("H " ++ keywords ++ " " ++ excerpt_text)

/-- A four-character source document (tokens resolved by the
`ensure_tokens` validator to `count_tokens "abcd" = 4`). -/
def doc0 : Document :=
  { id := "doc-1", text := "abcd", tokens := 4 }

/-! # Theorems -/

/-! ## Chunk coverage -/

/-- Helper: every position of the token list lies inside the raw window that
starts at the largest stride multiple not exceeding it. -/
theorem rawWindows_cover {α : Type} (tokens : List α) (chunk_size step : Nat)
    (hs : 0 < step) (hsc : step ≤ chunk_size) (i : Nat) (hi : i < tokens.length) :
    ∃ w ∈ rawWindows tokens chunk_size step, tokens[i] ∈ w := by
  have hks : i / step * step ≤ i := Nat.div_mul_le_self i step
  have hdm : step * (i / step) + i % step = i := Nat.div_add_mod i step
  have hmlt : i % step < step := Nat.mod_lt i hs
  have hsub : i - i / step * step < step := by
    have h := Nat.mul_comm step (i / step)
    omega
  refine ⟨(tokens.drop (i / step * step)).take chunk_size, ?_, ?_⟩
  · apply List.mem_map.2
    refine ⟨i / step * step, ?_, rfl⟩
    unfold pyIndices
    apply List.mem_map.2
    refine ⟨i / step, List.mem_range.2 ?_, rfl⟩
    unfold pyRangeLen
    have h1 : i / step + 1 ≤ (tokens.length + step - 1) / step := by
      rw [Nat.le_div_iff_mul_le hs, Nat.add_mul, Nat.one_mul]
      have h := Nat.mul_comm step (i / step)
      omega
    omega
  · have hlen : i - i / step * step
        < ((tokens.drop (i / step * step)).take chunk_size).length := by
      simp only [List.length_take, List.length_drop]
      omega
    have hgoal : ((tokens.drop (i / step * step)).take chunk_size)[i - i / step * step]
        = tokens[i] := by
      rw [List.getElem_take, List.getElem_drop]
      congr 1
      omega
    exact hgoal ▸ List.getElem_mem hlen

/-- Helper: the tail merge never loses a token — anything contained in some
window before the merge is contained in some chunk after it. -/
theorem mergeTail_mem {α : Type} (chunk_size : Nat) (t : ℚ)
    (chunks : List (List α)) (w : List α) (hw : w ∈ chunks) (x : α)
    (hx : x ∈ w) : ∃ u ∈ mergeTail chunk_size t chunks, x ∈ u := by
  unfold mergeTail
  split
  case _ lastW prevW rest heq =>
    split
    case _ =>
      have hw' : w ∈ lastW :: prevW :: rest := by
        rw [← List.mem_reverse, heq] at hw
        exact hw
      rw [List.mem_cons, List.mem_cons] at hw'
      rcases hw' with rfl | rfl | hmem
      · exact ⟨prevW ++ w, by simp, List.mem_append_right _ hx⟩
      · exact ⟨w ++ lastW, by simp, List.mem_append_left _ hx⟩
      · exact ⟨w, by simp [hmem], hx⟩
    case _ => exact ⟨w, hw, hx⟩
  case _ => exact ⟨w, hw, hx⟩

/-- Helper: with the default `chunk_overlap = 0.1` and any positive
`chunk_size`, `split_text_token_chunks` succeeds and its chunks cover every
token position of the input. -/
theorem split_text_token_chunks_coverage {α : Type} (tokens : List α)
    (chunk_size : Nat) (hcs : 0 < chunk_size) :
    ∃ chunks, split_text_token_chunks tokens chunk_size (1 / 10) (1 / 4)
        = .ok chunks ∧
      ∀ i (hi : i < tokens.length), ∃ w ∈ chunks, tokens[i] ∈ w := by
  have hnv : ¬((1 / 10 : ℚ) < 0 ∨ (1 / 10 : ℚ) > 1) := by norm_num
  have hfl : (⌊(1 / 10 : ℚ) * (chunk_size : ℚ)⌋).toNat < chunk_size := by
    have hc0 : (0 : ℚ) < (chunk_size : ℚ) := by exact_mod_cast hcs
    have h1 : (1 / 10 : ℚ) * (chunk_size : ℚ) < (chunk_size : ℚ) := by nlinarith
    have h2 : (⌊(1 / 10 : ℚ) * (chunk_size : ℚ)⌋ : ℤ) < (chunk_size : ℤ) := by
      apply Int.floor_lt.2
      push_cast
      exact h1
    omega
  refine ⟨mergeTail chunk_size (1 / 4)
    (rawWindows tokens chunk_size
      (chunk_size - (⌊(1 / 10 : ℚ) * (chunk_size : ℚ)⌋).toNat)), ?_, ?_⟩
  · unfold split_text_token_chunks
    rw [if_neg hnv, if_neg (by omega)]
  · intro i hi
    obtain ⟨w, hw, hx⟩ := rawWindows_cover tokens chunk_size
      (chunk_size - (⌊(1 / 10 : ℚ) * (chunk_size : ℚ)⌋).toNat)
      (by omega) (by omega) i hi
    exact mergeTail_mem _ _ _ w hw _ hx

/-- C1: for every text and every positive `chunk_size`, with `chunk_overlap`
at its default `0.1` (and `last_chunk_threshold` at its default `0.25`),
`split_text` succeeds and every token of the tokenized input appears in at
least one of the token windows it emits: the windows cover the whole token
sequence with no gaps. -/
theorem split_text_token_coverage (text : String) (chunk_size : Nat)
    (hcs : 0 < chunk_size) :
    ∃ chunks, split_text_token_chunks (tokenize text) chunk_size (1 / 10) (1 / 4)
        = .ok chunks ∧
      split_text text chunk_size none none = .ok (chunks.map detokenize) ∧
      ∀ i (hi : i < (tokenize text).length),
        ∃ w ∈ chunks, (tokenize text)[i] ∈ w := by
  obtain ⟨chunks, hok, hcov⟩ :=
    split_text_token_chunks_coverage (tokenize text) chunk_size hcs
  refine ⟨chunks, hok, ?_, hcov⟩
  unfold split_text
  rw [Option.getD_none, Option.getD_none, hok]
  rfl

/-- Witness for C1 at `text = "abc"`, `chunk_size = 2`. -/
theorem split_text_token_coverage_witness :
    ∃ chunks, split_text_token_chunks (tokenize "abc") 2 (1 / 10) (1 / 4)
        = .ok chunks ∧
      split_text "abc" 2 none none = .ok (chunks.map detokenize) ∧
      ∀ i (hi : i < (tokenize "abc").length),
        ∃ w ∈ chunks, (tokenize "abc")[i] ∈ w :=
  split_text_token_coverage "abc" 2 (by decide)

/-! ## Tail-merge invariant -/

/-- C2: whenever the raw windowing of `split_text` produces at least two
windows (written via the reversed window list) and the final window has
fewer than `chunk_size * last_chunk_threshold` tokens, the returned list has
exactly one fewer chunk than the raw windowing, the merged final chunk is
the second-to-last window with the final window appended, and its token
count is the sum of the token counts of the two windows it merges. -/
theorem split_text_tail_merge {α : Type} (tokens : List α) (chunk_size : Nat)
    (chunk_overlap last_chunk_threshold : ℚ)
    (lastW prevW : List α) (rest : List (List α))
    (h0 : 0 ≤ chunk_overlap) (h1 : chunk_overlap ≤ 1)
    (hstep : chunk_size - (⌊chunk_overlap * (chunk_size : ℚ)⌋).toNat ≠ 0)
    (hrev : (rawWindows tokens chunk_size
        (chunk_size - (⌊chunk_overlap * (chunk_size : ℚ)⌋).toNat)).reverse
          = lastW :: prevW :: rest)
    (hsmall : (lastW.length : ℚ) < (chunk_size : ℚ) * last_chunk_threshold) :
    ∃ out, split_text_token_chunks tokens chunk_size chunk_overlap
        last_chunk_threshold = .ok out ∧
      out.length + 1 = (rawWindows tokens chunk_size
        (chunk_size - (⌊chunk_overlap * (chunk_size : ℚ)⌋).toNat)).length ∧
      out.getLast? = some (prevW ++ lastW) ∧
      (prevW ++ lastW).length = prevW.length + lastW.length := by
  have hnv : ¬(chunk_overlap < 0 ∨ chunk_overlap > 1) := by
    push_neg
    exact ⟨h0, h1⟩
  refine ⟨((prevW ++ lastW) :: rest).reverse, ?_, ?_, ?_,
    List.length_append _ _⟩
  · unfold split_text_token_chunks
    rw [if_neg hnv, if_neg hstep]
    unfold mergeTail
    rw [hrev]
    simp only [if_pos hsmall]
  · have hlen := congrArg List.length hrev
    simp only [List.length_reverse, List.length_cons] at hlen ⊢
    omega
  · rw [List.getLast?_reverse]
    rfl

/-- Witness for C2: nine tokens, `chunk_size = 8`, `chunk_overlap = 0`,
`last_chunk_threshold = 1`; the raw windowing gives windows of 8 and 1
tokens and the 1-token tail is merged back. -/
theorem split_text_tail_merge_witness :
    ∃ out, split_text_token_chunks ([0, 1, 2, 3, 4, 5, 6, 7, 8] : List Nat)
        8 0 1 = .ok out ∧
      out.length + 1 = (rawWindows ([0, 1, 2, 3, 4, 5, 6, 7, 8] : List Nat) 8
        (8 - (⌊(0 : ℚ) * ((8 : Nat) : ℚ)⌋).toNat)).length ∧
      out.getLast? = some ([0, 1, 2, 3, 4, 5, 6, 7] ++ [8]) ∧
      (([0, 1, 2, 3, 4, 5, 6, 7] : List Nat) ++ [8]).length
        = ([0, 1, 2, 3, 4, 5, 6, 7] : List Nat).length
          + ([8] : List Nat).length :=
  split_text_tail_merge [0, 1, 2, 3, 4, 5, 6, 7, 8] 8 0 1 [8]
    [0, 1, 2, 3, 4, 5, 6, 7] []
    (by with_unfolding_all decide) (by with_unfolding_all decide)
    (by with_unfolding_all decide) (by with_unfolding_all decide)
    (by with_unfolding_all decide)

/-! ## Token-exact truncation -/

/-- C7: `count_tokens (slice_tokens text n) = min n (count_tokens text)` for
every text and every `n` — truncation is token-exact. -/
theorem slice_tokens_token_exact (text : String) (n : Nat) :
    count_tokens (slice_tokens text n) = min n (count_tokens text) := by
  show ((String.mk (text.data.take n)).data).length = min n text.data.length
  show (text.data.take n).length = min n text.data.length
  exact List.length_take n text.data

/-! ## Overlap validation -/

/-- C8: `split_text` fails with the `chunk_overlap` validation error exactly
when `chunk_overlap` lies outside `[0, 1]`; the check is the first thing the
function does, before tokenization or windowing. -/
theorem split_text_overlap_validation (text : String) (chunk_size : Nat)
    (chunk_overlap : ℚ) (last_chunk_threshold : Option ℚ) :
    split_text text chunk_size (some chunk_overlap) last_chunk_threshold
        = .error "chunk_overlap must be between 0 and 1"
      ↔ (chunk_overlap < 0 ∨ chunk_overlap > 1) := by
  unfold split_text split_text_token_chunks
  simp only [Option.getD_some]
  constructor
  · intro h
    by_contra hc
    rw [if_neg hc] at h
    split_ifs at h with hz
    · simp only [Except.map] at h
      have := Except.error.inj h
      simp at this
    · simp only [Except.map] at h
      exact Except.noConfusion h
  · intro h
    rw [if_pos h]
    rfl

/-! ## Degenerate stride -/

/-- C10: for a non-empty text and a `chunk_overlap` inside `[0, 1]` that
makes the stride `chunk_size - int(chunk_overlap * chunk_size)` zero (for
example `chunk_overlap = 1`), `split_text` raises the zero-step `range`
error rather than returning chunks or looping forever, even though the
overlap passed the range validation. -/
theorem split_text_zero_stride_error (text : String) (chunk_size : Nat)
    (chunk_overlap : ℚ)
    (hne : text ≠ "") (h0 : 0 ≤ chunk_overlap) (h1 : chunk_overlap ≤ 1)
    (hz : chunk_size - (⌊chunk_overlap * (chunk_size : ℚ)⌋).toNat = 0) :
    split_text text chunk_size (some chunk_overlap) none
      = .error "range() arg 3 must not be zero" := by
  unfold split_text split_text_token_chunks
  simp only [Option.getD_some]
  rw [if_neg (by push_neg; exact ⟨h0, h1⟩), if_pos hz]
  rfl

/-- Witness for C10 at `text = "ab"`, `chunk_size = 5`,
`chunk_overlap = 1`. -/
theorem split_text_zero_stride_error_witness :
    split_text "ab" 5 (some 1) none
      = .error "range() arg 3 must not be zero" :=
  split_text_zero_stride_error "ab" 5 1 (by decide)
    (by with_unfolding_all decide) (by with_unfolding_all decide)
    (by with_unfolding_all decide)

/-- Helper: a successful `Except` `mapM` returns one output per input, in
order, each the successful image of its input. -/
theorem mapM_except_ok_spec {α β : Type} (f : α → Except String β) (xs : List α)
    (ys : List β) (h : xs.mapM f = .ok ys) :
    ys.length = xs.length ∧
      ∀ i (hx : i < xs.length) (hy : i < ys.length), f xs[i] = .ok ys[i] := by
  induction xs generalizing ys with
  | nil =>
    rw [List.mapM_nil] at h
    have hys : ys = [] := by
      have : (pure [] : Except String (List β)) = .ok [] := rfl
      rw [this] at h
      exact (Except.ok.inj h).symm
    subst hys
    exact ⟨rfl, fun i hx hy => absurd hx (by simp)⟩
  | cons x xs ih =>
    rw [List.mapM_cons] at h
    cases hfx : f x with
    | error e =>
      rw [hfx] at h
      exact Except.noConfusion h
    | ok y =>
      rw [hfx] at h
      have h2 : Except.bind (xs.mapM f) (fun ys' => pure (y :: ys'))
          = .ok ys := h
      cases hxs : xs.mapM f with
      | error e =>
        rw [hxs] at h2
        exact Except.noConfusion h2
      | ok ys' =>
        rw [hxs] at h2
        have hys : ys = y :: ys' := (Except.ok.inj h2).symm
        subst hys
        obtain ⟨hlen, hspec⟩ := ih ys' hxs
        refine ⟨by simp [hlen], ?_⟩
        intro i hx hy
        cases i with
        | zero => simpa using hfx
        | succ j =>
          simp only [List.getElem_cons_succ]
          exact hspec j (by simpa using hx) (by simpa using hy)

/-- Helper: a successful `_create_excerpt` call determines the keyword list,
the rendered body, and every field of the built excerpt. -/
theorem _create_excerpt_ok_spec
    (extract_kw : String → Except String (List String))
    (render : Document → String → String → Except String String)
    (document : Document) (text : String) (exc : Document)
    (h : _create_excerpt extract_kw render document text = .ok exc) :
    ∃ kws body, extract_kw text = .ok kws ∧
      render document text (String.intercalate ", " kws) = .ok body ∧
      exc = { id := generate_prefixed_uuid "doc",
              text := body,
              parent_document_id := some document.id,
              metadata := document.metadata,
              tokens := count_tokens body,
              keywords := kws } := by
  unfold _create_excerpt at h
  cases hkw : extract_kw text with
  | error e =>
    rw [hkw] at h
    exact Except.noConfusion h
  | ok kws =>
    rw [hkw] at h
    have h2 : Except.bind (render document text (String.intercalate ", " kws))
        (fun excerpt_text =>
          (pure { id := generate_prefixed_uuid "doc",
                  text := excerpt_text,
                  parent_document_id := some document.id,
                  metadata := document.metadata,
                  tokens := count_tokens excerpt_text,
                  keywords := kws } : Except String Document)) = .ok exc := h
    cases hrd : render document text (String.intercalate ", " kws) with
    | error e =>
      rw [hrd] at h2
      exact Except.noConfusion h2
    | ok body =>
      rw [hrd] at h2
      exact ⟨kws, body, rfl, hrd, (Except.ok.inj h2).symm⟩

/-- C3: a successful `document_to_excerpts` call returns one new `Document`
per chunk, in chunker order; each excerpt carries
`parent_document_id = document.id`, the parent metadata, the keywords
extracted from its chunk, the rendered body as text, and `tokens` recomputed
from the rendered text (not from the raw chunk). -/
theorem document_to_excerpts_fields
    (extract_kw : String → Except String (List String))
    (render : Document → String → String → Except String String)
    (document : Document) (chunk_tokens : Nat) (overlap : ℚ)
    (excerpts : List Document)
    (hok : document_to_excerpts extract_kw render document chunk_tokens overlap
      = .ok excerpts) :
    ∃ text_chunks,
      split_text document.text chunk_tokens (some overlap) none
          = .ok text_chunks ∧
      excerpts.length = text_chunks.length ∧
      ∀ i (hc : i < text_chunks.length) (he : i < excerpts.length),
        ∃ kws body, extract_kw text_chunks[i] = .ok kws ∧
          render document text_chunks[i] (String.intercalate ", " kws)
            = .ok body ∧
          excerpts[i].parent_document_id = some document.id ∧
          excerpts[i].metadata = document.metadata ∧
          excerpts[i].keywords = kws ∧
          excerpts[i].text = body ∧
          excerpts[i].tokens = count_tokens body := by
  unfold document_to_excerpts at hok
  cases hsp : split_text document.text chunk_tokens (some overlap) none with
  | error e =>
    rw [hsp] at hok
    exact Except.noConfusion hok
  | ok text_chunks =>
    rw [hsp] at hok
    have h2 : text_chunks.mapM (_create_excerpt extract_kw render document)
        = .ok excerpts := hok
    obtain ⟨hlen, hspec⟩ := mapM_except_ok_spec _ _ _ h2
    refine ⟨text_chunks, rfl, hlen, ?_⟩
    intro i hc he
    obtain ⟨kws, body, hkw, hrd, hexc⟩ :=
      _create_excerpt_ok_spec _ _ _ _ _ (hspec i hc he)
    exact ⟨kws, body, hkw, hrd, by rw [hexc], by rw [hexc], by rw [hexc],
      by rw [hexc], by rw [hexc]⟩

/-- Witness for C3: `doc0` with `chunk_tokens = 2`, `overlap = 0` chunks into
`"ab"` and `"cd"` and yields two excerpts with the expected fields. -/
theorem document_to_excerpts_fields_witness :
    ∃ text_chunks,
      split_text doc0.text 2 (some 0) none = .ok text_chunks ∧
      ([⟨"doc_uuid4", "H kw ab", some "doc-1", none, {}, 7, ["kw"]⟩,
        ⟨"doc_uuid4", "H kw cd", some "doc-1", none, {}, 7, ["kw"]⟩]
          : List Document).length = text_chunks.length ∧
      ∀ i (hc : i < text_chunks.length)
        (he : i < ([⟨"doc_uuid4", "H kw ab", some "doc-1", none, {}, 7, ["kw"]⟩,
          ⟨"doc_uuid4", "H kw cd", some "doc-1", none, {}, 7, ["kw"]⟩]
            : List Document).length),
        ∃ kws body, kw_ok text_chunks[i] = .ok kws ∧
          render_ok doc0 text_chunks[i] (String.intercalate ", " kws)
            = .ok body ∧
          ([⟨"doc_uuid4", "H kw ab", some "doc-1", none, {}, 7, ["kw"]⟩,
            ⟨"doc_uuid4", "H kw cd", some "doc-1", none, {}, 7, ["kw"]⟩]
              : List Document)[i].parent_document_id = some doc0.id ∧
          ([⟨"doc_uuid4", "H kw ab", some "doc-1", none, {}, 7, ["kw"]⟩,
            ⟨"doc_uuid4", "H kw cd", some "doc-1", none, {}, 7, ["kw"]⟩]
              : List Document)[i].metadata = doc0.metadata ∧
          ([⟨"doc_uuid4", "H kw ab", some "doc-1", none, {}, 7, ["kw"]⟩,
            ⟨"doc_uuid4", "H kw cd", some "doc-1", none, {}, 7, ["kw"]⟩]
              : List Document)[i].keywords = kws ∧
          ([⟨"doc_uuid4", "H kw ab", some "doc-1", none, {}, 7, ["kw"]⟩,
            ⟨"doc_uuid4", "H kw cd", some "doc-1", none, {}, 7, ["kw"]⟩]
              : List Document)[i].text = body ∧
          ([⟨"doc_uuid4", "H kw ab", some "doc-1", none, {}, 7, ["kw"]⟩,
            ⟨"doc_uuid4", "H kw cd", some "doc-1", none, {}, 7, ["kw"]⟩]
              : List Document)[i].tokens = count_tokens body :=
  document_to_excerpts_fields kw_ok render_ok doc0 2 0
    [⟨"doc_uuid4", "H kw ab", some "doc-1", none, {}, 7, ["kw"]⟩,
     ⟨"doc_uuid4", "H kw cd", some "doc-1", none, {}, 7, ["kw"]⟩]
    (by with_unfolding_all rfl)

/-- C4 counterexample: with a keyword-extraction capability that fails the
way `extract_keywords` fails when `yake` is missing, `document_to_excerpts`
on `doc0` propagates the error — no excerpt list with empty keywords is
returned, refuting the claim at this concrete input. -/
theorem extraction_failure_not_absorbed_cex :
    document_to_excerpts kw_failing render_ok doc0 2 0
        = .error "ImportError: yake is required for keyword extraction" ∧
      ∀ excerpts, document_to_excerpts kw_failing render_ok doc0 2 0
        ≠ .ok excerpts := by
  constructor
  · with_unfolding_all rfl
  · intro excerpts h
    have h2 : (Except.error "ImportError: yake is required for keyword extraction"
        : Except String (List Document)) = .ok excerpts := by
      rw [← h]
      with_unfolding_all rfl
    exact Except.noConfusion h2

/-- C4 amended: a failure of the keyword-extraction capability propagates out
of `document_to_excerpts` (the source calls `extract_keywords` with no
exception handling): if extraction fails on the first chunk, the whole call
fails with that error and no excerpts are produced. -/
theorem extraction_failure_propagates
    (extract_kw : String → Except String (List String))
    (render : Document → String → String → Except String String)
    (document : Document) (chunk_tokens : Nat) (overlap : ℚ)
    (c : String) (cs : List String) (e : String)
    (hchunks : split_text document.text chunk_tokens (some overlap) none
      = .ok (c :: cs))
    (hfail : extract_kw c = .error e) :
    document_to_excerpts extract_kw render document chunk_tokens overlap
      = .error e := by
  have hce : _create_excerpt extract_kw render document c = .error e := by
    unfold _create_excerpt
    rw [hfail]
    rfl
  unfold document_to_excerpts
  rw [hchunks]
  show (c :: cs).mapM (_create_excerpt extract_kw render document) = .error e
  rw [List.mapM_cons, hce]
  rfl

/-- Witness for C4 amended: the failing extractor on `doc0` with chunks
`"ab"`, `"cd"`. -/
theorem extraction_failure_propagates_witness :
    document_to_excerpts kw_failing render_ok doc0 2 0
      = .error "ImportError: yake is required for keyword extraction" :=
  extraction_failure_propagates kw_failing render_ok doc0 2 0 "ab" ["cd"]
    "ImportError: yake is required for keyword extraction"
    (by with_unfolding_all rfl) (by rfl)

/-- Helper: slicing a non-empty list peels off its first slice. -/
theorem pySlices_cons {α : Type} (l : List α) (s : Nat) (hs : 0 < s)
    (hl : l ≠ []) : pySlices l s = l.take s :: pySlices (l.drop s) s := by
  have hn : 0 < l.length := List.length_pos.2 hl
  have hm : pyRangeLen l.length s = pyRangeLen (l.drop s).length s + 1 := by
    unfold pyRangeLen
    rw [List.length_drop]
    rcases le_or_lt l.length s with h | h
    · have h1 : l.length - s = 0 := by omega
      have h2 : l.length + s - 1 = (l.length - 1) + s := by omega
      have h3 : (0 : Nat) + s - 1 = s - 1 := by omega
      rw [h1, h2, h3, Nat.add_div_right _ hs, Nat.div_eq_of_lt (by omega),
        Nat.div_eq_of_lt (by omega)]
    · have h2 : l.length + s - 1 = (l.length - 1) + s := by omega
      have h4 : l.length - s + s - 1 = (l.length - 1 - s) + s := by omega
      have h5 : l.length - 1 = (l.length - 1 - s) + s := by omega
      rw [h2, h4, Nat.add_div_right _ hs, Nat.add_div_right _ hs, h5,
        Nat.add_div_right _ hs]
      have h6 : l.length - 1 - s + s - s = l.length - 1 - s := by omega
      rw [h6]
  unfold pySlices pyIndices
  rw [hm, List.range_succ_eq_map]
  simp only [List.map_cons, List.map_map]
  rw [Nat.zero_mul, List.drop_zero]
  congr 1
  apply List.map_congr_left
  intro j hj
  simp only [Function.comp_apply]
  rw [Nat.succ_mul, List.drop_drop]
  congr 2
  omega

/-- Helper: for a positive slice width, the slices flatten back to the
original list — nothing is lost or duplicated. -/
theorem pySlices_flatten {α : Type} (l : List α) (s : Nat) (hs : 0 < s) :
    (pySlices l s).flatten = l := by
  have H : ∀ (n : Nat) (l : List α), l.length = n → (pySlices l s).flatten = l := by
    intro n
    induction n using Nat.strong_induction_on with
    | _ n ih =>
      intro l hlen
      subst hlen
      cases l with
      | nil =>
        have h0 : pyRangeLen 0 s = 0 := by
          unfold pyRangeLen
          exact Nat.div_eq_of_lt (by omega)
        simp [pySlices, pyIndices, h0]
      | cons x xs =>
        rw [pySlices_cons _ _ hs (by simp), List.flatten_cons]
        rw [ih ((x :: xs).drop s).length
          (by simp only [List.length_drop, List.length_cons]; omega) _ rfl]
        exact List.take_append_drop s (x :: xs)
  exact H l.length l rfl

/-- Helper: each slice has at most `step` elements. -/
theorem pySlices_mem_length_le {α : Type} (l : List α) (s : Nat)
    (w : List α) (hw : w ∈ pySlices l s) : w.length ≤ s := by
  unfold pySlices at hw
  obtain ⟨i, _, rfl⟩ := List.mem_map.1 hw
  simp [List.length_take]

/-- Helper: the number of slices is `⌈len / step⌉`. -/
theorem pySlices_length {α : Type} (l : List α) (s : Nat) :
    (pySlices l s).length = pyRangeLen l.length s := by
  unfold pySlices pyIndices
  rw [List.length_map, List.length_map, List.length_range]

/-- C5: `TurboPuffer.upsert_batched` issues exactly
`⌈len(documents) / batch_size⌉` write calls — the consecutive batches, in
order — each carrying at most `batch_size` documents, and the write calls
together carry exactly the input documents. `Chroma.upsert_batched`,
however, never reaches a write call: it hands the `_upsert` function objects
themselves (not coroutines) to `run_concurrent_tasks`, whose `await task`
fails with `TypeError` — on any single-document input it errors instead of
issuing the one write call the claim requires. -/
theorem upsert_batched_partition_and_chroma_failure
    (documents : List Document) (batch_size max_concurrent : Nat)
    (hb : 0 < batch_size) (hm : 0 < max_concurrent) :
    (TurboPuffer.upsert_batched_writes documents batch_size max_concurrent
        = pySlices documents batch_size ∧
      (TurboPuffer.upsert_batched_writes documents batch_size
          max_concurrent).length
        = (documents.length + batch_size - 1) / batch_size ∧
      (∀ w ∈ TurboPuffer.upsert_batched_writes documents batch_size
          max_concurrent, w.length ≤ batch_size) ∧
      (TurboPuffer.upsert_batched_writes documents batch_size
          max_concurrent).flatten = documents) ∧
    ∀ d : Document, Chroma.upsert_batched [d] batch_size max_concurrent
      = .error "TypeError: object function cannot be used in await expression" := by
  have hw : TurboPuffer.upsert_batched_writes documents batch_size
      max_concurrent = pySlices documents batch_size := by
    unfold TurboPuffer.upsert_batched_writes
    exact pySlices_flatten _ _ hm
  refine ⟨⟨hw, ?_, ?_, ?_⟩, ?_⟩
  · rw [hw, pySlices_length]
    rfl
  · intro w hmem
    rw [hw] at hmem
    exact pySlices_mem_length_le _ _ _ hmem
  · rw [hw]
    exact pySlices_flatten _ _ hb
  · intro d
    have h1 : pySlices [d] batch_size = [[d]] := by
      rw [pySlices_cons [d] batch_size hb (by simp)]
      have h2 : List.drop batch_size [d] = [] := by
        apply List.drop_eq_nil_of_le
        simpa using hb
      have h3 : List.take batch_size [d] = [d] := by
        apply List.take_of_length_le
        simpa using hb
      rw [h2, h3]
      have h0 : pyRangeLen 0 batch_size = 0 := by
        unfold pyRangeLen
        exact Nat.div_eq_of_lt (by omega)
      simp [pySlices, pyIndices, h0]
    unfold Chroma.upsert_batched Chroma.upsert_batched_tasks
      run_concurrent_tasks
    rw [h1]
    rfl

/-- Witness for C5 at three documents, `batch_size = 2`,
`max_concurrent = 1`. -/
theorem upsert_batched_partition_witness :
    (TurboPuffer.upsert_batched_writes [doc0, doc0, doc0] 2 1
        = pySlices [doc0, doc0, doc0] 2 ∧
      (TurboPuffer.upsert_batched_writes [doc0, doc0, doc0] 2 1).length
        = (([doc0, doc0, doc0] : List Document).length + 2 - 1) / 2 ∧
      (∀ w ∈ TurboPuffer.upsert_batched_writes [doc0, doc0, doc0] 2 1,
        w.length ≤ 2) ∧
      (TurboPuffer.upsert_batched_writes [doc0, doc0, doc0] 2 1).flatten
        = [doc0, doc0, doc0]) ∧
    ∀ d : Document, Chroma.upsert_batched [d] 2 1
      = .error "TypeError: object function cannot be used in await expression" :=
  upsert_batched_partition_and_chroma_failure [doc0, doc0, doc0] 2 1
    (by decide) (by decide)

/-- Helper: the semaphore invariant of `run_concurrent_tasks` — free slots
plus running tasks always equal `max_concurrent`. -/
theorem runState_invariant (n mc : Nat) (s : RunState)
    (h : RunReachable n mc s) : s.sem + activeCount s = mc := by
  induction h with
  | init =>
    have hz : activeCount (initState n mc) = 0 := by
      unfold activeCount initState
      apply List.countP_eq_zero.2
      intro a ha
      rw [List.eq_of_mem_replicate ha]
      decide
    unfold initState at hz ⊢
    rw [hz]
    rfl
  | @step s1 s2 hreach hstep ih =>
    cases hstep with
    | acquire i hlt hw hs2 =>
      have hg : s1.phases[i] = TaskPhase.waiting := hw
      have hc := List.countP_set (· == TaskPhase.running) s1.phases i
        TaskPhase.running hlt
      simp only [hg] at hc
      simp at hc
      unfold activeCount at ih ⊢
      show s1.sem - 1
        + (s1.phases.set i TaskPhase.running).countP (· == TaskPhase.running)
        = mc
      rw [hc]
      omega
    | finish i hlt hr =>
      have hg : s1.phases[i] = TaskPhase.running := hr
      have hpos : 0 < s1.phases.countP (· == TaskPhase.running) :=
        List.countP_pos_iff.2 ⟨s1.phases[i], List.getElem_mem hlt, by rw [hg]; rfl⟩
      have hc := List.countP_set (· == TaskPhase.running) s1.phases i
        TaskPhase.done hlt
      simp only [hg] at hc
      simp at hc
      unfold activeCount at ih ⊢
      show s1.sem + 1
        + (s1.phases.set i TaskPhase.done).countP (· == TaskPhase.running)
        = mc
      rw [hc]
      omega

/-- C6: at no reachable state of a `run_concurrent_tasks` execution are more
than `max_concurrent` submitted tasks simultaneously executing, for any
`max_concurrent ≥ 1` — the semaphore bounds concurrency throughout. -/
theorem run_concurrent_tasks_bounded (n mc : Nat) (hmc : 1 ≤ mc)
    (s : RunState) (h : RunReachable n mc s) : activeCount s ≤ mc := by
  have hinv := runState_invariant n mc s h
  omega

/-- Witness for C6: two tasks, `max_concurrent = 1`, after the scheduler
admits the first task through the semaphore. -/
theorem run_concurrent_tasks_bounded_witness :
    activeCount ⟨[TaskPhase.running, TaskPhase.waiting], 0⟩ ≤ 1 :=
  run_concurrent_tasks_bounded 2 1 (by decide)
    ⟨[TaskPhase.running, TaskPhase.waiting], 0⟩
    (RunReachable.step RunReachable.init
      (RunStep.acquire (initState 2 1) 0 (by decide) (by rfl) (by decide)))

/-- C9: resetting a namespace absent from the backing store is a successful
no-op — `NotFoundError` is swallowed, the store is unchanged — and `ok()`
afterwards returns `false` instead of propagating the not-found error. -/
theorem reset_missing_namespace_noop (store : List String) (ns : String)
    (h : ns ∉ store) :
    TurboPuffer.reset store ns = .ok store ∧
      TurboPuffer.ok store ns = .ok false := by
  constructor
  · unfold TurboPuffer.reset ns_delete_all
    rw [if_neg h]
  · unfold TurboPuffer.ok ns_exists
    rw [if_neg h]

/-- Witness for C9: resetting the absent namespace `"raggy"` on a store that
only holds `"other"`. -/
theorem reset_missing_namespace_noop_witness :
    TurboPuffer.reset ["other"] "raggy" = .ok ["other"] ∧
      TurboPuffer.ok ["other"] "raggy" = .ok false :=
  reset_missing_namespace_noop ["other"] "raggy" (by decide)

end Raggy
